import Mathlib

/-!
Verification of the simple-midi-synth repository (Go) against its
natural-language specification, via a shallow embedding of the source in
Lean 4.

Conventions of the embedding:
* Go byte streams are `List ℕ` (each element a byte value 0..255 produced by
  the caller); Go `int`/`uint` become `ℤ`/`ℕ` (the source never overflows
  64-bit integers on the inputs considered here).
* Go runtime panics (index out of range, slice bounds, division by zero) and
  Go error returns are distinguished by the `Fail` type below; fallible
  functions return `Except Fail α`.
* Go `float32` arithmetic in the tempo timer and timeline builder is modeled
  by exact rational arithmetic (`ℚ`); each theorem that depends on a float
  value only evaluates it at points where every float32 intermediate is
  exactly representable, which is noted at the theorem.  The transcendental
  float math of the synthesizer (`math.Pow`, `math.Sin`, `math.Pi`) is
  modeled over `ℝ`; the facts proved about it (sign and zero/non-zero
  distinctions, with wide margins) are insensitive to float32 rounding.
-/

/-- Outcome of a fallible Go computation: a runtime panic (index out of
range, slice bounds, division by zero) or an error value returned to the
caller. -/
inductive Fail where
  | panic
  | err (msg : String)
deriving DecidableEq, Repr

deriving instance DecidableEq for Except

/-! ## Pitch model (source file `src/unnamed/part_000`, `semitoneFromNote`,
`noteFromSemitone`, `frequencyFromSemitone`) -/

/-- Result of matching the regular expression
`^([A-G])(\-?\d+)(b\x7b0,2\x7d|#\x7b0,2\x7d)$` against a note name and taking the
three submatches (tone letter, signed octave digits, accidental).  The
octave group is greedy, but since the accidental alternatives contain no
digits, maximal-munch digit consumption is equivalent to the regex with
backtracking. -/
def parseNote (note : String) : Option (String × String × String) :=
  match note.toList with
  | [] => none
  | t :: rest =>
    if 'A' ≤ t ∧ t ≤ 'G' then
      let octSign : List Char := if rest.head? = some '-' then ['-'] else []
      let rest₁ : List Char := if rest.head? = some '-' then rest.tail else rest
      let digits : List Char := rest₁.takeWhile Char.isDigit
      let rest₂ : List Char := rest₁.dropWhile Char.isDigit
      if digits = [] then none
      else if rest₂ = [] ∨ rest₂ = ['b'] ∨ rest₂ = ['b', 'b'] ∨
              rest₂ = ['#'] ∨ rest₂ = ['#', '#'] then
        some (String.mk [t], String.mk (octSign ++ digits), String.mk rest₂)
      else none
    else none

/-- The `tones` map of `semitoneFromNote` (string keys, as in the source). -/
def tonesMap : List (String × ℤ) :=
  [("C", 0), ("D", 2), ("E", 4), ("F", 5), ("G", 7), ("A", 9), ("B", 11)]

/-- The `octaves` map of `semitoneFromNote` (string keys; note `"04"` or
`"11"` are absent, exactly as in the source). -/
def octavesMap : List (String × ℤ) :=
  [("-1", 0), ("0", 1), ("1", 2), ("2", 3), ("3", 4), ("4", 5), ("5", 6),
   ("6", 7), ("7", 8), ("8", 9), ("9", 10), ("10", 11)]

/-- The `accidentals` map of `semitoneFromNote`. -/
def accidentalsMap : List (String × ℤ) :=
  [("bb", -2), ("b", -1), ("", 0), ("#", 1), ("##", 2)]

def invalidNoteMsg : String := "invalid note"
def invalidToneInNoteMsg : String := "invalid tone in note"
def invalidOctaveInNoteMsg : String := "invalid octave in note"
def invalidAccidentalMsg : String := "invalid accidental in note"
def invalidOctaveMsg : String := "invalid octave"
def invalidToneMsg : String := "invalid tone"

/-- `semitoneFromNote` (part_000 lines 26-67).  Go returns `(int, error)`;
the embedding returns the pair of the value and the optional error message
(every error path returns value 0).  The function never panics. -/
def semitoneFromNote (note : String) : ℤ × Option String :=
  match parseNote note with
  | none => (0, some invalidNoteMsg)
  | some (tone, octave, accidental) =>
    match tonesMap.lookup tone with
    | none => (0, some invalidToneInNoteMsg)
    | some t =>
      match octavesMap.lookup octave with
      | none => (0, some invalidOctaveInNoteMsg)
      | some o =>
        match accidentalsMap.lookup accidental with
        | none => (0, some invalidAccidentalMsg)
        | some a => (t + o * 12 + a, none)

/-- Go slice indexing with an `int` index: a negative or too-large index
panics. -/
def listGetI {α : Type} (l : List α) (i : ℤ) : Except Fail α :=
  if 0 ≤ i then
    match l.get? i.toNat with
    | some a => .ok a
    | none => .error .panic
  else .error .panic

/-- The `octaves` table of `noteFromSemitone`. -/
def octavesTable : List ℤ := [-1, 0, 1, 2, 3, 4] ++ [5, 6, 7, 8, 9, 10]

/-- The sharp-preferring `tones` table of `noteFromSemitone`. -/
def tonesTable : List String :=
  ["C", "C#", "D", "D#", "E", "F"] ++ ["F#", "G", "G#", "A", "A#", "B"]

/-- `noteFromSemitone` (part_000 lines 69-98).  Go returns `(string, error)`
and callers may use the value (`"REST"`) even when the error is set, so the
embedding returns `(value, optional error)` on the non-panicking paths.
`int(math.Floor(float64(semitone) / 12))` is exact floor division for every
`|semitone| < 2^52`, modeled by `Int.fdiv`.  The bounds checks in the source
are one-sided (`octaveIndex >= len(octaves)`, `toneIndex >= len(tones)`
only), so a negative `octaveIndex` reaches `octaves[octaveIndex]` and
panics. -/
def noteFromSemitone (semitone : ℤ) : Except Fail (String × Option String) := do
  let octaveIndex : ℤ := Int.fdiv semitone 12
  let toneIndex : ℤ := semitone - octaveIndex * 12
  if octaveIndex ≥ (octavesTable.length : ℤ) then
    .ok ("REST", some invalidOctaveMsg)
  else if toneIndex ≥ (tonesTable.length : ℤ) then
    .ok ("REST", some invalidToneMsg)
  else do
    let tone ← listGetI tonesTable toneIndex
    let octave ← listGetI octavesTable octaveIndex
    match tone.toList with
    | [] => .error .panic
    | [c] => .ok (String.singleton c ++ toString octave, none)
    | c :: c₂ :: _ => .ok (String.singleton c ++ toString octave ++ String.singleton c₂, none)

example : semitoneFromNote ("C4") = (60, none) := by decide
example : semitoneFromNote ("D4b") = (61, none) := by decide
example : semitoneFromNote ("Db4") = (0, some invalidNoteMsg) := by decide
example : noteFromSemitone 60 = .ok ("C4", none) := by decide
example : noteFromSemitone 61 = .ok ("C4#", none) := by decide
example : noteFromSemitone (-1) = .error .panic := by decide
example : noteFromSemitone 144 = .ok ("REST", some invalidOctaveMsg) := by decide

/-! ## Tempo timer (source file `src/internal/time/timer.go`) -/

/-- `Timer` (timer.go lines 23-26): ticks per quarter note and the list of
critical points `(delta, microsecondsPerBeat)` in insertion order. -/
structure Timer where
  ticksPerBeat : ℤ
  criticalPoints : List (ℤ × ℤ)
deriving DecidableEq, Repr

/-- `NewTimer` (timer.go lines 29-34). -/
def NewTimer (ticksPerBeat : ℤ) : Timer := ⟨ticksPerBeat, []⟩

def microsecondsPerSecond : ℤ := 1000000

/-- The MIDI-standard default tempo (timer.go line 40). -/
def microsecondsPerBeatDefault : ℤ := 500000

/-- `AddCriticalPoint` (timer.go lines 44-49): appends. -/
def Timer.AddCriticalPoint (t : Timer) (delta microsecondsPerBeat : ℤ) : Timer :=
  { t with criticalPoints := t.criticalPoints ++ [(delta, microsecondsPerBeat)] }

/-- The loop of `Timer.Time` (timer.go lines 58-71) followed by the final
accumulation (line 73).  The Go loop runs while critical points remain and
`delta > 0`; each sub-interval contributes
`float32(ticks*microsecondsPerBeat) / float32(ticksPerBeat) / 1000000`
seconds, modeled as exact rational arithmetic (the `ticks*uspb` product is a
Go `int` product, exact). -/
def timeLoop (ticksPerBeat : ℤ) : List (ℤ × ℤ) → ℤ → ℤ → ℚ → ℚ
  | [], delta, uspb, time =>
    time + ((delta * uspb : ℤ) : ℚ) / (ticksPerBeat : ℚ) / (microsecondsPerSecond : ℚ)
  | cp :: rest, delta, uspb, time =>
    if 0 < delta then
      if delta ≥ cp.1 then
        timeLoop ticksPerBeat rest (delta - cp.1) cp.2
          (time + ((cp.1 * uspb : ℤ) : ℚ) / (ticksPerBeat : ℚ) / (microsecondsPerSecond : ℚ))
      else
        timeLoop ticksPerBeat rest 0 cp.2
          (time + ((delta * uspb : ℤ) : ℚ) / (ticksPerBeat : ℚ) / (microsecondsPerSecond : ℚ))
    else
      time + ((delta * uspb : ℤ) : ℚ) / (ticksPerBeat : ℚ) / (microsecondsPerSecond : ℚ)

/-- `Timer.Time` (timer.go lines 52-76). -/
def Timer.Time (t : Timer) (delta : ℤ) : ℚ :=
  timeLoop t.ticksPerBeat t.criticalPoints delta microsecondsPerBeatDefault 0

example : (NewTimer 480).Time 480 = 1 / 2 := by
  norm_num [Timer.Time, NewTimer, timeLoop, microsecondsPerBeatDefault, microsecondsPerSecond]
example : ((NewTimer 480).AddCriticalPoint 480 1000000).Time 480 = 1 / 2 := by
  norm_num [Timer.Time, NewTimer, Timer.AddCriticalPoint, timeLoop, microsecondsPerBeatDefault,
    microsecondsPerSecond]
example : ((NewTimer 480).AddCriticalPoint 480 1000000).Time 960 = 3 / 2 := by
  norm_num [Timer.Time, NewTimer, Timer.AddCriticalPoint, timeLoop, microsecondsPerBeatDefault,
    microsecondsPerSecond]

/-! ## MIDI stream parser (source file `src/synth/midi.go`) -/

/-- `midiStream` (midi.go lines 24-28). -/
structure midiStream where
  data : List ℕ
  byteOffset : ℕ
  lastEventTypeByte : ℕ
deriving DecidableEq, Repr

/-- `newMIDIStream` (midi.go lines 30-41).  The Go version can only fail when
the underlying reader fails; the embedding receives the bytes directly. -/
def newMIDIStream (data : List ℕ) : midiStream := ⟨data, 0, 0⟩

/-- `readString` (midi.go lines 43-52): reads `byteLength` bytes as
characters.  Any out-of-range element access panics; with `byteLength = 0`
the loop body never runs. -/
def readString (m : midiStream) (byteLength : ℕ) : Except Fail (String × midiStream) :=
  if byteLength = 0 then
    .ok ("", { m with byteOffset := m.byteOffset + byteLength })
  else if m.byteOffset + byteLength ≤ m.data.length then
    .ok (String.mk (((m.data.drop m.byteOffset).take byteLength).map Char.ofNat),
         { m with byteOffset := m.byteOffset + byteLength })
  else .error .panic

/-- `readUint8` (midi.go lines 90-98). -/
def readUint8 (m : midiStream) : Except Fail (ℕ × midiStream) :=
  match m.data.get? m.byteOffset with
  | some b => .ok (b, { m with byteOffset := m.byteOffset + 1 })
  | none => .error .panic

/-- `readUint16` (midi.go lines 79-88). -/
def readUint16 (m : midiStream) : Except Fail (ℕ × midiStream) :=
  match m.data.get? m.byteOffset, m.data.get? (m.byteOffset + 1) with
  | some b₀, some b₁ => .ok ((b₀ <<< 8) + b₁, { m with byteOffset := m.byteOffset + 2 })
  | _, _ => .error .panic

/-- `readUint24` (midi.go lines 67-77). -/
def readUint24 (m : midiStream) : Except Fail (ℕ × midiStream) :=
  match m.data.get? m.byteOffset, m.data.get? (m.byteOffset + 1),
        m.data.get? (m.byteOffset + 2) with
  | some b₀, some b₁, some b₂ =>
    .ok ((b₀ <<< 16) + (b₁ <<< 8) + b₂, { m with byteOffset := m.byteOffset + 3 })
  | _, _, _ => .error .panic

/-- `readUint32` (midi.go lines 54-65). -/
def readUint32 (m : midiStream) : Except Fail (ℕ × midiStream) :=
  match m.data.get? m.byteOffset, m.data.get? (m.byteOffset + 1),
        m.data.get? (m.byteOffset + 2), m.data.get? (m.byteOffset + 3) with
  | some b₀, some b₁, some b₂, some b₃ =>
    .ok ((b₀ <<< 24) + (b₁ <<< 16) + (b₂ <<< 8) + b₃,
         { m with byteOffset := m.byteOffset + 4 })
  | _, _, _, _ => .error .panic

/-- Loop body of `readVarUint` (midi.go lines 100-113), with a fuel argument
bounding the number of reads.  Each iteration consumes exactly one byte, so
with fuel exceeding the stream length the fuel can never run out before an
out-of-range read panics; the fuel-exhausted branch is unreachable for the
initial fuel chosen in `readVarUint`. -/
def readVarUintAux : ℕ → ℕ → midiStream → Except Fail (ℕ × midiStream)
  | 0, _, _ => .error .panic
  | fuel + 1, value, m => do
    let (ui8, m) ← readUint8 m
    let value := (value <<< 7) + (ui8 &&& 0x7f)
    if ui8 &&& 0x80 == 0x80 then readVarUintAux fuel value m
    else .ok (value, m)

/-- `readVarUint` (midi.go lines 100-113): MIDI variable-length quantity. -/
def readVarUint (m : midiStream) : Except Fail (ℕ × midiStream) :=
  readVarUintAux (m.data.length + 1) 0 m

/-- `skip` (midi.go lines 115-117): advances the offset without reading. -/
def skip (m : midiStream) (byteLength : ℕ) : midiStream :=
  { m with byteOffset := m.byteOffset + byteLength }

/-- `midiChunk` (midi.go lines 119-123). -/
structure midiChunk where
  id : String
  length : ℕ
  data : List ℕ
deriving DecidableEq, Repr

/-- `readChunk` (midi.go lines 125-139): 4-byte tag, 32-bit big-endian
length, then the slice `m.data[byteOffset : byteOffset+length]`.  A Go
slice expression is bounds-checked against the buffer *capacity*, not its
length, and `ioutil.ReadAll` (the producer of `m.data`, midi.go line 31)
returns a buffer whose capacity is at least 512 bytes and whose spare
region beyond the data has never been written (freshly allocated, hence
zero).  So a declared length that runs past the data but stays within the
capacity yields a zero-filled tail rather than a panic; only a high bound
beyond the capacity panics.  `bufCap` is that capacity: its exact value is
determined by `ReadAll`'s growth (512 for a small input whose reader
reports EOF together with the data, 1536 when EOF arrives on a later read,
and in general a small geometric multiple of the input size); theorems
either quantify over it or evaluate at its possible values.  `readChunk`
is only ever applied to the top-level stream (main.go lines 119 and 137),
so only that buffer's capacity is relevant; the nested header/track
streams are re-read through fresh `ReadAll` buffers but never sliced, only
indexed (and Go indexing is length-checked). -/
def readChunk (m : midiStream) (bufCap : ℕ) : Except Fail (midiChunk × midiStream) := do
  let (id, m) ← readString m 4
  let (length, m) ← readUint32 m
  let byteOffset := m.byteOffset
  let m := { m with byteOffset := byteOffset + length }
  if m.byteOffset ≤ bufCap then
    .ok (⟨id, length,
          (((m.data ++ List.replicate (bufCap - m.data.length) 0).drop byteOffset).take
            length)⟩, m)
  else .error .panic

example : readVarUint (newMIDIStream [0x81, 0x00]) = .ok (128, ⟨[0x81, 0x00], 2, 0⟩) := by decide
example : readVarUint (newMIDIStream [0xff, 0x7f]) = .ok (16383, ⟨[0xff, 0x7f], 2, 0⟩) := by decide
example :
    readChunk (newMIDIStream [77, 84, 104, 100, 0, 0, 0, 2, 9, 9]) 512 =
      .ok (⟨"MThd", 2, [9, 9]⟩, ⟨[77, 84, 104, 100, 0, 0, 0, 2, 9, 9], 10, 0⟩) := by decide
example :
    readChunk (newMIDIStream [88, 88, 88, 88, 0, 0, 0, 100]) 512 =
      .ok (⟨"XXXX", 100, List.replicate 100 0⟩, ⟨[88, 88, 88, 88, 0, 0, 0, 100], 108, 0⟩) := by
  decide
example :
    readChunk (newMIDIStream [88, 88, 88, 88, 255, 255, 255, 255]) 512 = .error .panic := by
  decide

/-- Go list indexing with a `ℕ` index (panics when out of range). -/
def listGetN {α : Type} (l : List α) (i : ℕ) : Except Fail α :=
  match l.get? i with
  | some a => .ok a
  | none => .error .panic

/-- Value of a decimal digit string. -/
def digitsToNat (cs : List Char) : ℕ :=
  cs.foldl (fun acc ch => acc * 10 + (ch.toNat - 48)) 0

/-- `strconv.Atoi` with the error discarded: every caller in the source
ignores the error and uses the returned value, which is 0 on a syntax
error. -/
def atoi (s : String) : ℤ :=
  match s.toList with
  | [] => 0
  | '-' :: rest =>
    if rest ≠ [] ∧ rest.all Char.isDigit then -(digitsToNat rest : ℤ) else 0
  | '+' :: rest =>
    if rest ≠ [] ∧ rest.all Char.isDigit then (digitsToNat rest : ℤ) else 0
  | cs => if cs.all Char.isDigit then (digitsToNat cs : ℤ) else 0

/-- Reading a missing key from a Go `map[string]string` yields the empty
string. -/
def lookupD (l : List (String × String)) (k : String) : String :=
  (l.lookup k).getD ""

/-- `midiEvent` (midi.go lines 141-147).  The Go `map[string]string` value
map is modeled as an association list in insertion order (each parser branch
writes distinct keys, and consumers only perform keyed lookups). -/
structure midiEvent where
  delta : ℕ
  eventType : String
  subType : String
  value : List (String × String)
  channel : ℕ
deriving DecidableEq, Repr

/-- The decimal renderings produced by `fmt.Sprintf` with the `%f` verb on
the elements of `[]float32\x7b24, 25, 29.97, 30\x7d` (midi.go line 220); the
`frameRate` entry is never read by any consumer in the repository. -/
def frameRates : List String :=
  ["24.000000", "25.000000", "29.969999", "30.000000"]

/-- `readEvent` (midi.go lines 149-332). -/
def readEvent (m : midiStream) : Except Fail (midiEvent × midiStream) := do
  let (delta, m) ← readVarUint m
  let (eventTypeByte, m) ← readUint8 m
  if eventTypeByte &&& 0xf0 == 0xf0 then
    -- system event
    if eventTypeByte == 0xff then
      -- meta event (midi.go lines 162-253)
      let (subTypeByte, m) ← readUint8 m
      let (length, m) ← readVarUint m
      match subTypeByte with
      | 0x00 =>
        if length == 2 then do
          let (v, m) ← readUint16 m
          .ok (⟨delta, "meta", "sequenceNumber", [("value", toString v)], 0⟩, m)
        else .ok (⟨delta, "meta", "sequenceNumber", [], 0⟩, skip m length)
      | 0x01 => do
        let (s, m) ← readString m length
        .ok (⟨delta, "meta", "text", [("value", s)], 0⟩, m)
      | 0x02 => do
        let (s, m) ← readString m length
        .ok (⟨delta, "meta", "copyrightNotice", [("value", s)], 0⟩, m)
      | 0x03 => do
        let (s, m) ← readString m length
        .ok (⟨delta, "meta", "trackName", [("value", s)], 0⟩, m)
      | 0x04 => do
        let (s, m) ← readString m length
        .ok (⟨delta, "meta", "instrumentName", [("value", s)], 0⟩, m)
      | 0x05 => do
        let (s, m) ← readString m length
        .ok (⟨delta, "meta", "lyrics", [("value", s)], 0⟩, m)
      | 0x06 => do
        let (s, m) ← readString m length
        .ok (⟨delta, "meta", "marker", [("value", s)], 0⟩, m)
      | 0x07 => do
        let (s, m) ← readString m length
        .ok (⟨delta, "meta", "cuePoint", [("value", s)], 0⟩, m)
      | 0x20 =>
        if length == 1 then do
          let (v, m) ← readUint8 m
          .ok (⟨delta, "meta", "midiChannelPrefix", [("value", toString v)], 0⟩, m)
        else .ok (⟨delta, "meta", "midiChannelPrefix", [], 0⟩, skip m length)
      | 0x2f =>
        if length > 0 then
          .ok (⟨delta, "meta", "endOfTrack", [], 0⟩, skip m length)
        else .ok (⟨delta, "meta", "endOfTrack", [], 0⟩, m)
      | 0x51 =>
        if length == 3 then do
          let (v, m) ← readUint24 m
          .ok (⟨delta, "meta", "setTempo", [("value", toString v)], 0⟩, m)
        else .ok (⟨delta, "meta", "setTempo", [], 0⟩, skip m length)
      | 0x54 =>
        if length == 5 then do
          let (hourByte, m) ← readUint8 m
          let frameRate ← listGetN frameRates (hourByte >>> 6)
          let (minute, m) ← readUint8 m
          let (second, m) ← readUint8 m
          let (frame, m) ← readUint8 m
          let (subFrame, m) ← readUint8 m
          .ok (⟨delta, "meta", "smpteOffset",
                [("frameRate", frameRate), ("hour", toString (hourByte &&& 0x3f)),
                 ("minute", toString minute), ("second", toString second),
                 ("frame", toString frame), ("subFrame", toString subFrame)], 0⟩, m)
        else .ok (⟨delta, "meta", "smpteOffset", [], 0⟩, skip m length)
      | 0x58 =>
        if length == 4 then do
          let (numerator, m) ← readUint8 m
          let (denominator, m) ← readUint8 m
          let (clocks, m) ← readUint8 m
          let (thirtyseconds, m) ← readUint8 m
          .ok (⟨delta, "meta", "timeSignature",
                [("numerator", toString numerator), ("denominator", toString denominator),
                 ("metronome", toString (1 <<< clocks)),
                 ("thirtyseconds", toString thirtyseconds)], 0⟩, m)
        else .ok (⟨delta, "meta", "timeSignature", [], 0⟩, skip m length)
      | 0x59 =>
        if length == 2 then do
          let (key, m) ← readUint8 m
          let (scale, m) ← readUint8 m
          .ok (⟨delta, "meta", "keySignature",
                [("key", toString key), ("scale", toString scale)], 0⟩, m)
        else .ok (⟨delta, "meta", "keySignature", [], 0⟩, skip m length)
      | 0x7f => do
        let (s, m) ← readString m length
        .ok (⟨delta, "meta", "sequencerSpecific", [("value", s)], 0⟩, m)
      | _ => do
        let (s, m) ← readString m length
        .ok (⟨delta, "meta", "unknown", [("value", s)], 0⟩, m)
    else if eventTypeByte == 0xf0 then do
      -- sysex event (midi.go lines 255-258); `subType` keeps its zero value
      let (length, m) ← readVarUint m
      let (s, m) ← readString m length
      .ok (⟨delta, "sysEx", "", [("value", s)], 0⟩, m)
    else if eventTypeByte == 0xf7 then do
      let (length, m) ← readVarUint m
      let (s, m) ← readString m length
      .ok (⟨delta, "dividedSysEx", "", [("value", s)], 0⟩, m)
    else do
      let (length, m) ← readVarUint m
      let (s, m) ← readString m length
      .ok (⟨delta, "unknown", "", [("value", s)], 0⟩, m)
  else do
    -- channel event (midi.go lines 269-323)
    let (param, eventTypeByte, m) ←
      if eventTypeByte &&& 0x80 == 0x00 then
        -- running status: the byte just read is the first data byte and the
        -- event type byte is the last one seen (0x00 if none was ever seen)
        .ok ((eventTypeByte, m.lastEventTypeByte, m) :
          ℕ × ℕ × midiStream)
      else do
        let (param, m) ← readUint8 m
        .ok (param, eventTypeByte, { m with lastEventTypeByte := eventTypeByte })
    let channelEventType := eventTypeByte >>> 4
    let channel := eventTypeByte &&& 0x0f
    match channelEventType with
    | 0x08 => do
      let (velocity, m) ← readUint8 m
      .ok (⟨delta, "channel", "noteOff",
            [("noteNumber", toString param), ("velocity", toString velocity)], channel⟩, m)
    | 0x09 => do
      let (velocity, m) ← readUint8 m
      -- a noteOn with velocity 0 denotes noteOff (midi.go lines 296-302)
      let subType := if atoi (toString velocity) == 0 then "noteOff" else "noteOn"
      .ok (⟨delta, "channel", subType,
            [("noteNumber", toString param), ("velocity", toString velocity)], channel⟩, m)
    | 0x0a => do
      let (amount, m) ← readUint8 m
      .ok (⟨delta, "channel", "noteAftertouch",
            [("noteNumber", toString param), ("amount", toString amount)], channel⟩, m)
    | 0x0b => do
      let (v, m) ← readUint8 m
      .ok (⟨delta, "channel", "controller",
            [("controllerNumber", toString param), ("controllerValue", toString v)], channel⟩, m)
    | 0x0c =>
      .ok (⟨delta, "channel", "programChange", [("value", toString param)], channel⟩, m)
    | 0x0d =>
      .ok (⟨delta, "channel", "channelAftertouch", [("value", toString param)], channel⟩, m)
    | 0x0e => do
      let (v, m) ← readUint8 m
      .ok (⟨delta, "channel", "pitchBend", [("value", toString (param + (v <<< 7)))], channel⟩, m)
    | _ => do
      let (v, m) ← readUint8 m
      .ok (⟨delta, "channel", "unknown", [("value", toString ((param <<< 8) + v))], channel⟩, m)

example :
    readEvent (newMIDIStream [0, 0x90, 60, 100]) =
      .ok (⟨0, "channel", "noteOn", [("noteNumber", "60"), ("velocity", "100")], 0⟩,
           ⟨[0, 0x90, 60, 100], 4, 0x90⟩) := by decide
example :
    readEvent (newMIDIStream [0, 0x80, 60, 64]) =
      .ok (⟨0, "channel", "noteOff", [("noteNumber", "60"), ("velocity", "64")], 0⟩,
           ⟨[0, 0x80, 60, 64], 4, 0x80⟩) := by decide
example :
    readEvent (newMIDIStream [0, 0xff, 0x51, 3, 0x0f, 0x42, 0x40]) =
      .ok (⟨0, "meta", "setTempo", [("value", "1000000")], 0⟩,
           ⟨[0, 0xff, 0x51, 3, 0x0f, 0x42, 0x40], 7, 0⟩) := by decide
example :
    readEvent (newMIDIStream [0, 0x40, 0x40]) =
      .ok (⟨0, "channel", "unknown", [("value", "16448")], 0⟩, ⟨[0, 0x40, 0x40], 3, 0⟩) := by
  decide

/-! ## Note timeline builder (source file `src/example/main.go`, `MIDIToWAV`
and its helper types) -/

/-- `noteValue` (main.go lines 95-98). -/
structure noteValue where
  offset : ℚ
  velocity : ℤ
deriving DecidableEq, Repr

/-- `noteEvent` (main.go lines 100-104): a flattened chronology record. -/
structure noteEvent where
  velocity : ℤ
  delta : ℕ
  note : Bool
deriving DecidableEq, Repr

/-- `progression` (main.go lines 106-111): one resolved note segment. -/
structure progression where
  note : String
  time : ℚ
  amplitude : ℚ
  offset : ℚ
deriving DecidableEq, Repr

/-- The comparison closure passed to `sort.Slice` (main.go line 233). -/
def lessEvent (a b : noteEvent) : Bool :=
  decide (a.delta < b.delta) || (a.delta == b.delta && ((a.note != b.note) && b.note))

/-- The non-strict order induced by `lessEvent`; a sequence is sorted for
`sort.Slice` exactly when no later element is `lessEvent`-below an earlier
one. -/
def eventLE (a b : noteEvent) : Prop := lessEvent b a = false

instance : DecidableRel eventLE := fun a b => by unfold eventLE; infer_instance

/-- The sorting step of `MIDIToWAV` (main.go lines 232-234), modeled as an
insertion sort with respect to the source's comparison closure (`sort.Slice`
guarantees exactly a permutation that is sorted for the closure). -/
def sortEvents (events : List noteEvent) : List noteEvent :=
  List.insertionSort eventLE events

/-- State of the normalization sweep (main.go lines 236-241). -/
structure sweepState where
  velocity : ℤ
  maxVelocity : ℤ
  chord : ℤ
  maxChord : ℤ
deriving DecidableEq, Repr

/-- One step of the normalization sweep (main.go lines 243-259). -/
def sweepStep (s : sweepState) (e : noteEvent) : sweepState :=
  if e.note then
    let velocity := s.velocity + e.velocity
    let chord := s.chord + 1
    { velocity := velocity,
      maxVelocity := if velocity > s.maxVelocity then velocity else s.maxVelocity,
      chord := chord,
      maxChord := if chord > s.maxChord then chord else s.maxChord }
  else
    { s with velocity := s.velocity - e.velocity, chord := s.chord - 1 }

/-- The whole sweep, started from `velocity = maxVelocity = 1`,
`chord = maxChord = 0` (main.go lines 236-259). -/
def sweepVelocity (events : List noteEvent) : sweepState :=
  events.foldl sweepStep ⟨1, 1, 0, 0⟩

/-- The amplitude scale factor `128 / float32(maxVelocity)` computed from
the sorted chronology (main.go lines 232-262). -/
def maxAmplitude (events : List noteEvent) : ℚ :=
  128 / ((sweepVelocity (sortEvents events)).maxVelocity : ℚ)

/-- Assignment `m[semitone] = v` on the per-pitch stack map: replaces the
binding if the key is present, otherwise inserts it.  A binding, once
created, persists even when its stack becomes empty — exactly like a Go map
entry holding an empty slice. -/
def pmSet (pm : List (ℤ × List noteValue)) (k : ℤ) (v : List noteValue) :
    List (ℤ × List noteValue) :=
  match pm with
  | [] => [(k, v)]
  | (k₁, v₁) :: rest => if k₁ = k then (k, v) :: rest else (k₁, v₁) :: pmSet rest k v

/-- The tempo-map construction loop (main.go lines 164-173): walk track 0
accumulating delta ticks, adding a critical point at every `setTempo` meta
event and resetting the accumulator. -/
def setupTempo (timer : Timer) (track0 : List midiEvent) : Timer :=
  (track0.foldl
    (fun (acc : ℤ × Timer) event =>
      let delta := acc.1 + (event.delta : ℤ)
      if event.subType = "setTempo" then
        (0, acc.2.AddCriticalPoint delta (atoi (lookupD event.value ("value"))))
      else (delta, acc.2))
    (0, timer)).2

/-- Interleaved per-file progression/chronology accumulator of the note
generation loop. -/
structure TLState where
  prog : List progression
  events : List noteEvent
deriving DecidableEq, Repr

/-- The per-track note generation loop (main.go lines 181-229): walks the
track's events with a running cumulative delta and the per-pitch stack map.
On `noteOn` pushes a `noteValue`; on `noteOff` the source first checks only
that the map *key* exists (returning the `invalid semitone` error if not,
main.go lines 209-211) and then reads `m[semitone][len(m[semitone])-1]`,
which panics when the stack exists but is empty. -/
def processEvents (timer : Timer) :
    List midiEvent → ℕ → List (ℤ × List noteValue) → TLState → Except Fail TLState
  | [], _, _, st => .ok st
  | event :: rest, delta, pm, st =>
    let delta := delta + event.delta
    if event.eventType = "channel" then
      let semitone := atoi (lookupD event.value ("noteNumber"))
      if event.subType = "noteOn" then
        let v := atoi (lookupD event.value ("velocity"))
        let note : noteValue := ⟨timer.Time (delta : ℤ), v⟩
        let pm :=
          match pm.lookup semitone with
          | some stack => pmSet pm semitone (stack ++ [note])
          | none => pmSet pm semitone [note]
        processEvents timer rest delta pm
          { st with events := st.events ++ [⟨note.velocity, delta, true⟩] }
      else if event.subType = "noteOff" then
        match pm.lookup semitone with
        | none => .error (.err ("invalid semitone (" ++ toString semitone ++ ")"))
        | some stack =>
          match stack.getLast? with
          | none => .error .panic
          | some note => do
            let pm := pmSet pm semitone stack.dropLast
            let (n, _) ← noteFromSemitone semitone
            processEvents timer rest delta pm
              { prog := st.prog ++
                  [⟨n, timer.Time (delta : ℤ) - note.offset, (note.velocity : ℚ) / 128,
                    note.offset⟩],
                events := st.events ++ [⟨note.velocity, delta, false⟩] }
      else processEvents timer rest delta pm st
    else processEvents timer rest delta pm st

/-- Per-track wrapper: each track starts with a fresh cumulative delta and a
fresh per-pitch stack map (main.go lines 176-180). -/
def processTrack (timer : Timer) (st : TLState) (track : List midiEvent) :
    Except Fail TLState :=
  processEvents timer track 0 [] st

/-- The event loop of one `MTrk` chunk (main.go lines 150-153): read events
while the byte offset is below the chunk length.  The `keep` flag of the
source is never set to false, so it is elided.  Fuel bounds the iteration
count; every `readEvent` advances the offset by at least two bytes, so fuel
`length + 1` can never be exhausted before the loop condition fails or a
read panics. -/
def parseEventsLoop (length : ℕ) : ℕ → midiStream → List midiEvent → Except Fail (List midiEvent)
  | 0, _, _ => .error .panic
  | fuel + 1, ts, acc =>
    if ts.byteOffset < length then do
      let (event, ts) ← readEvent ts
      parseEventsLoop length fuel ts (acc ++ [event])
    else .ok acc

/-- The track-chunk loop of `MIDIToWAV` (main.go lines 136-158): reads
`trackCount` chunks, skipping chunks whose tag is not `MTrk` and parsing the
events of each `MTrk` chunk. -/
def parseTracks (m : midiStream) (bufCap : ℕ) :
    ℕ → Except Fail (List (List midiEvent) × midiStream)
  | 0 => .ok ([], m)
  | n + 1 => do
    let (trackChunk, m) ← readChunk m bufCap
    if trackChunk.id ≠ "MTrk" then parseTracks m bufCap n
    else do
      let track ← parseEventsLoop trackChunk.length (trackChunk.length + 1)
        (newMIDIStream trackChunk.data) []
      let (rest, m) ← parseTracks m bufCap n
      .ok (track :: rest, m)

def invalidHeaderMsg : String := "invalid header"
def unsupportedFormatMsg : String := "unsupported format"

/-- The parsing prefix of `MIDIToWAV` (main.go lines 114-158): header chunk,
header fields, and the per-track event lists.  Returns the parsed track list
together with the time-division field.  `bufCap` is the capacity of the
top-level `ReadAll` buffer (see `readChunk`); it satisfies
`bytes.length ≤ bufCap` and `512 ≤ bufCap` for every real run. -/
def midiParse (bytes : List ℕ) (bufCap : ℕ) : Except Fail (List (List midiEvent) × ℕ) := do
  let m := newMIDIStream bytes
  let (header, m) ← readChunk m bufCap
  if header.id ≠ "MThd" ∨ header.length ≠ 6 then .error (.err invalidHeaderMsg)
  else do
    let hs := newMIDIStream header.data
    let (_formatType, hs) ← readUint16 hs
    let (trackCount, hs) ← readUint16 hs
    let (timeDivision, _) ← readUint16 hs
    let (tracks, _) ← parseTracks m bufCap trackCount
    .ok (tracks, timeDivision)

/-- The data handed from the timeline builder to the synthesis stage: the
progression list and the amplitude scale factor passed to
`writeProgression` (main.go line 275). -/
abbrev SynthInput := List progression × ℚ

/-- The timeline stage of `MIDIToWAV` (main.go lines 160-268): tempo-map
construction from track 0 (`tracks[0]` panics when no `MTrk` chunk was
found), note generation over every track, chronology sort and normalization
sweep.  In the frames-per-second case (time-division bit 15 set) the source
returns the `unsupported format` error. -/
def buildTimeline (tracks : List (List midiEvent)) (timeDivision : ℕ) :
    Except Fail SynthInput :=
  if timeDivision >>> 15 == 0 then
    match tracks with
    | [] => .error .panic
    | track0 :: _ => do
      let timer := setupTempo (NewTimer (timeDivision : ℤ)) track0
      let st ← tracks.foldlM (processTrack timer) ⟨[], []⟩
      .ok (st.prog, maxAmplitude st.events)
  else .error (.err unsupportedFormatMsg)

/-- `MIDIToWAV` (main.go lines 114-278) up to the synthesis boundary: it
yields the progression list and amplitude scale handed to
`writeProgression`.  The subsequent rendering and container encoding on the
fixed mono/44100 Hz/16-bit configuration are modeled separately
(`writeNoteSample`, `typeData`); every error or panic the theorems below
conclude occurs inside the embedded prefix.  `bufCap` is the top-level
`ReadAll` buffer capacity (see `readChunk`); whenever every chunk stays
within the data itself the result does not depend on it. -/
def MIDIToWAV (bytes : List ℕ) (bufCap : ℕ) : Except Fail SynthInput := do
  let (tracks, timeDivision) ← midiParse bytes bufCap
  buildTimeline tracks timeDivision

example :
    MIDIToWAV ([77, 84, 104, 100, 0, 0, 0, 6, 0, 0, 0, 1, 1, 224,
                77, 84, 114, 107, 0, 0, 0, 9,
                0, 144, 60, 100, 0x83, 0x60, 128, 60, 64]) 512 =
      .ok ([⟨"C4", 1 / 2, 100 / 128, 0⟩], 128 / 101) :=
  of_decide_eq_true (by with_unfolding_all rfl)

/-! ## Waveform synthesizer (source file `src/unnamed/part_000`,
`writeNote`), modeled over `ℝ`.  Only the per-sample value and the computed
angular frequency are needed by the claims; the buffer-indexing loop is not
reproduced here. -/

/-- `frequencyFromSemitone` (part_000 lines 100-104):
`440 * math.Pow(2, float64(semitone-69)/12)`. -/
noncomputable def frequencyFromSemitone (semitone : ℤ) : ℝ :=
  440 * (2 : ℝ) ^ (((semitone : ℝ) - 69) / 12)

/-- The angular frequency computed by `writeNote` (part_000 lines 180-181):
the error of `semitoneFromNote` is discarded, and the returned value (0 on
any error) feeds `frequencyFromSemitone`. -/
noncomputable def angularFrequency (note : String) (sampleRate : ℝ) : ℝ :=
  frequencyFromSemitone (semitoneFromNote note).1 * Real.pi * 2 / sampleRate

/-- `math.Round` (half away from zero). -/
noncomputable def goRound (x : ℝ) : ℤ :=
  if 0 ≤ x then ⌊x + 1 / 2⌋ else -⌊-x + 1 / 2⌋

/-- The sample value `d` written by the update loop of `writeNote` for block
index `i` (part_000 lines 216-229): zero when the angular frequency is not
positive, otherwise an enveloped sine value with linear fade-in over the
first `sampleRate*0.001` samples and fade-out over the last ones.  The
float32 constant `0.001` is modeled as the exact rational it approximates;
the claims proved below evaluate this function only far from the branch
boundaries the rounding of `0.001` could move. -/
noncomputable def writeNoteSample (note : String) (sampleRate time amplitude : ℝ) (i : ℕ) : ℝ :=
  let fadeSeconds : ℝ := 1 / 1000
  let frequency := angularFrequency note sampleRate
  let blocksOut := goRound (sampleRate * time)
  let nonZero : ℝ := (blocksOut : ℝ) - sampleRate * fadeSeconds
  let fade : ℝ := sampleRate * fadeSeconds + 1
  if 0 < frequency then
    let d := amplitude * Real.sin (frequency * (i : ℝ))
    if (i : ℝ) < fade then d * ((i : ℝ) / fade)
    else if nonZero < (i : ℝ) then d * (((blocksOut : ℝ) - (i : ℝ) + 1) / fade)
    else d
  else 0

/-! ## WAVE container encoder (source file `src/unnamed/part_000`,
`typeData`) -/

/-- The fields of `wavData` (part_000 lines 106-115) read by `typeData`;
the remaining fields (header bytes, pointer, channel count, sample rate,
chunk size) are not consumed by it. -/
structure wavData where
  bitsPerSample : ℕ
  subChunk2Size : ℕ
  data : List ℚ
deriving DecidableEq, Repr

/-- Go conversion of a float to an integer type: truncation toward zero
(exact for values representable in the target type; the theorems below
evaluate it only on in-range values). -/
def truncQ (q : ℚ) : ℤ := if 0 ≤ q then q.floor else q.ceil

/-- Write into a Go byte slice: out-of-range indices panic. -/
def setAt (l : List ℕ) (i v : ℕ) : Except Fail (List ℕ) :=
  if i < l.length then .ok (l.set i v) else .error .panic

/-- Read `w.data[i]`: out-of-range indices panic. -/
def getQ (l : List ℚ) (i : ℕ) : Except Fail ℚ :=
  match l.get? i with
  | some q => .ok q
  | none => .error .panic

/-- `typeData` (part_000 lines 312-354).  `bytesPerSample` is
`bitsPerSample >> 3`; a zero value would make the Go integer division
`int(size) / bytesPerSample` panic.  The scale is
`float32(math.Pow(2, float64(bitsPerSample-1)) - 1)`, exact in float32 for
the 8/16/24-bit cases used by the claims.  Note the 1-byte case writes
`buf[i*2]`, exactly as the source does. -/
def typeData (w : wavData) : Except Fail (List ℕ) := do
  let bytesPerSample := w.bitsPerSample >>> 3
  if bytesPerSample = 0 then .error .panic
  else do
    let size := w.subChunk2Size
    let samples := size / bytesPerSample
    let buf := List.replicate size 0
    let amplitude : ℚ := 2 ^ ((w.bitsPerSample : ℤ) - 1) - 1
    match bytesPerSample with
    | 1 =>
      (List.range samples).foldlM
        (fun buf i => do
          let d ← getQ w.data i
          setAt buf (i * 2) ((truncQ (d * amplitude + 0x80)).emod 256).toNat)
        buf
    | 2 =>
      (List.range samples).foldlM
        (fun buf i => do
          let s ← getQ w.data i
          let d := ((truncQ (s * amplitude + 0x10000)).emod 65536).toNat &&& 0xffff
          let buf ← setAt buf (i * 2) (d &&& 0xff)
          setAt buf (i * 2 + 1) (d >>> 8))
        buf
    | 3 =>
      (List.range samples).foldlM
        (fun buf i => do
          let s ← getQ w.data i
          let d := ((truncQ (s * amplitude + 0x1000000)).emod (2 ^ 32)).toNat &&& 0xFFFFFF
          let buf ← setAt buf (i * 3) (d &&& 0xff)
          let buf ← setAt buf (i * 3 + 1) ((d >>> 8) &&& 0xff)
          setAt buf (i * 3 + 2) (d >>> 16))
        buf
    | 4 =>
      (List.range samples).foldlM
        (fun buf i => do
          let s ← getQ w.data i
          let d := ((truncQ (s * amplitude + 0x100000000)).emod (2 ^ 32)).toNat &&& 0xFFFFFFFF
          let buf ← setAt buf (i * 4) (d &&& 0xff)
          let buf ← setAt buf (i * 4 + 1) ((d >>> 8) &&& 0xff)
          let buf ← setAt buf (i * 4 + 2) ((d >>> 16) &&& 0xff)
          setAt buf (i * 4 + 3) (d >>> 24))
        buf
    | _ => .ok buf

example : typeData ⟨8, 1, [0]⟩ = .ok [128] := of_decide_eq_true (by with_unfolding_all rfl)
example : typeData ⟨8, 2, [0, 0]⟩ = .error .panic :=
  of_decide_eq_true (by with_unfolding_all rfl)

/-! ## Helper lemmas -/

theorem lessEvent_iff (a b : noteEvent) :
    lessEvent a b = true ↔
      a.delta < b.delta ∨ (a.delta = b.delta ∧ a.note = false ∧ b.note = true) := by
  cases ha : a.note <;> cases hb : b.note <;> simp [lessEvent, ha, hb] <;> omega

theorem eventLE_iff (a b : noteEvent) :
    eventLE a b ↔ a.delta < b.delta ∨ (a.delta = b.delta ∧ (a.note = true → b.note = true)) := by
  unfold eventLE
  rw [← Bool.not_eq_true, lessEvent_iff]
  cases ha : a.note <;> cases hb : b.note <;> simp <;> omega

instance : IsTotal noteEvent eventLE :=
  ⟨by
    intro a b
    rw [eventLE_iff, eventLE_iff]
    cases ha : a.note <;> cases hb : b.note <;> simp <;> omega⟩

instance : IsTrans noteEvent eventLE :=
  ⟨by
    intro a b c hab hbc
    rw [eventLE_iff] at hab hbc ⊢
    cases ha : a.note <;> cases hb : b.note <;> cases hc : c.note <;> simp_all <;> omega⟩

/-- Specification-side description of the sweep: the maximum value attained
by the running velocity sum started at `s` (the sum rises by the velocity of
each note-on record and falls by the velocity of each note-off record). -/
def runMax (s : ℤ) : List noteEvent → ℤ
  | [] => s
  | e :: t => max s (runMax (if e.note then s + e.velocity else s - e.velocity) t)

theorem le_runMax (s : ℤ) (l : List noteEvent) : s ≤ runMax s l := by
  cases l <;> simp [runMax]

theorem sweep_foldl_maxVelocity (l : List noteEvent) :
    ∀ v m c mc : ℤ, v ≤ m → (∀ e ∈ l, 0 ≤ e.velocity) →
      (l.foldl sweepStep ⟨v, m, c, mc⟩).maxVelocity = max m (runMax v l) := by
  induction l with
  | nil =>
    intro v m c mc hvm _
    simp [runMax]
    omega
  | cons e t ih =>
    intro v m c mc hvm hvel
    have hv0 : 0 ≤ e.velocity := hvel e (List.mem_cons_self e t)
    have hvel₂ : ∀ x ∈ t, 0 ≤ x.velocity := fun x hx => hvel x (List.mem_cons_of_mem e hx)
    rw [List.foldl_cons]
    by_cases he : e.note = true
    · have hstep : sweepStep ⟨v, m, c, mc⟩ e =
          ⟨v + e.velocity, max m (v + e.velocity), c + 1, max mc (c + 1)⟩ := by
        simp only [sweepStep, he, if_true, sweepState.mk.injEq, true_and, and_true]
        constructor <;> (split <;> omega)
      rw [hstep, ih _ _ _ _ (le_max_right _ _) hvel₂]
      have h₁ := le_runMax (v + e.velocity) t
      simp only [runMax, he, if_true]
      omega
    · rw [Bool.not_eq_true] at he
      have hstep : sweepStep ⟨v, m, c, mc⟩ e =
          ⟨v - e.velocity, m, c - 1, mc⟩ := by
        simp [sweepStep, he]
      rw [hstep, ih _ _ _ _ (by omega) hvel₂]
      have h₁ := le_runMax (v - e.velocity) t
      simp only [runMax, he, if_false, Bool.false_eq_true]
      omega

/-- Executable round-trip check for one semitone value: `noteFromSemitone`
succeeds without error and `semitoneFromNote` maps the produced name back to
the same semitone. -/
def rtCheck (k : ℕ) : Bool :=
  match noteFromSemitone (k : ℤ) with
  | .ok (n, none) => decide (semitoneFromNote n = ((k : ℤ), none))
  | _ => false

set_option maxRecDepth 4000 in
theorem rtCheck_all : ∀ k : ℕ, k < 144 → rtCheck k = true := by decide

/-! ## Claims -/

/-- C6: for a `Timer` built with 480 ticks per quarter note, `Time(480)` is
exactly 0.5 s with no critical points; with one critical point at tick 480
setting the tempo to 1,000,000 µs per quarter note, `Time(480) = 0.5` and
`Time(960) = 1.5`.  (Every float32 intermediate of these evaluations —
240000000, 500000, 0.5, 480000000, 1000000, 1, 1.5 — is exactly
representable, so the exact rational model agrees with the float32
computation.) -/
theorem timer_time_examples :
    (NewTimer 480).Time 480 = 1 / 2
    ∧ ((NewTimer 480).AddCriticalPoint 480 1000000).Time 480 = 1 / 2
    ∧ ((NewTimer 480).AddCriticalPoint 480 1000000).Time 960 = 3 / 2 :=
  ⟨of_decide_eq_true (by with_unfolding_all rfl),
   of_decide_eq_true (by with_unfolding_all rfl),
   of_decide_eq_true (by with_unfolding_all rfl)⟩

/-- C1: contrary to the claim, a channel-voice noteOff that finds its
per-pitch stack *empty* (the key exists because earlier noteOn/noteOff pairs
created and then drained it) does not produce the unmatched-note-off error:
the source checks only key existence and then indexes
`m[semitone][len(m[semitone])-1]`, which panics.  First conjunct: header +
one track `noteOn(60,100) · noteOff(60) · noteOff(60)` panics.  Second
conjunct: a noteOff whose pitch key was never created does return the
`invalid semitone (60)` error, as the claim describes.  (Both inputs keep
every chunk inside the data itself, so the outcome is the same for every
buffer capacity; 512, `ReadAll`'s minimum, is used.) -/
theorem noteOff_empty_stack_panics :
    MIDIToWAV ([77, 84, 104, 100, 0, 0, 0, 6, 0, 0, 0, 1, 0, 96,
                77, 84, 114, 107, 0, 0, 0, 12,
                0, 144, 60, 100, 0, 128, 60, 64, 0, 128, 60, 64]) 512 = .error .panic
    ∧ MIDIToWAV ([77, 84, 104, 100, 0, 0, 0, 6, 0, 0, 0, 1, 0, 96,
                  77, 84, 114, 107, 0, 0, 0, 4, 0, 128, 60, 64]) 512 =
        .error (.err ("invalid semitone (60)")) :=
  ⟨by decide, by decide⟩

/-- C9: contrary to the claim, the 8-bit branch of `typeData` does not store
one byte per sample at consecutive offsets: it writes `buf[i*2]` into a
buffer of `subchunk2Size = n` bytes, so with two samples the write at index
2 is out of range and panics.  With a single zero sample it produces the
biased byte `0*127 + 0x80 = 128` at offset 0, confirming the quantization
formula itself. -/
theorem typeData_8bit_stride :
    typeData ⟨8, 1, [0]⟩ = .ok [128] ∧ typeData ⟨8, 2, [0, 0]⟩ = .error .panic :=
  ⟨of_decide_eq_true (by with_unfolding_all rfl),
   of_decide_eq_true (by with_unfolding_all rfl)⟩

theorem exceptBind_ok {ε σ τ : Type} (x : σ) (g : σ → Except ε τ) :
    Except.ok x >>= g = g x := rfl

theorem exceptBind_err {ε σ τ : Type} (e : ε) (g : σ → Except ε τ) :
    (Except.error e : Except ε σ) >>= g = Except.error e := rfl

/-- C5 counterexample: the claim quantifies over *all* tags and lengths,
but a declared length whose slice bound exceeds the `ReadAll` buffer
capacity panics inside `readChunk` before the header check runs.  On an
8-byte input the standard library's `ioutil.ReadAll` yields a capacity of
512 (when the reader reports EOF together with the data) or 1536 (when EOF
arrives on a later read) — every possible capacity for an 8-byte stream is
a few kilobytes, vastly below this input's slice bound
8 + 0xFFFFFFFF = 4294967303 — so the real program panics rather than
returning the invalid-header error.  (A moderate over-length such as 100
stays within the capacity and does return the error: see the amended
theorem and its witness.) -/
theorem invalid_header_cex :
    MIDIToWAV ([88, 88, 88, 88, 255, 255, 255, 255]) 512 = .error .panic
    ∧ MIDIToWAV ([88, 88, 88, 88, 255, 255, 255, 255]) 1536 = .error .panic :=
  ⟨by decide, by decide⟩

/-- C5 (amended): whenever the first chunk's payload slice stays within the
`ReadAll` buffer capacity — which includes every declared length up to that
capacity, even past the end of the data, since the spare region reads as
zero bytes — a tag other than `MThd` or a length other than 6 makes
`MIDIToWAV` return the `invalid header` error and nothing else (first
conjunct).  A declared length whose slice bound `8 + length` exceeds the
capacity instead panics in `readChunk` before the header check (second
conjunct). -/
theorem invalid_header_of_bad_tag_or_length :
    (∀ (bytes : List ℕ) (bufCap : ℕ) (c : midiChunk) (m : midiStream),
        readChunk (newMIDIStream bytes) bufCap = .ok (c, m) →
        c.id ≠ "MThd" ∨ c.length ≠ 6 →
        MIDIToWAV bytes bufCap = .error (.err invalidHeaderMsg))
    ∧ (∀ (bytes : List ℕ) (bufCap : ℕ) (id : String) (length : ℕ) (m₁ m₂ : midiStream),
        readString (newMIDIStream bytes) 4 = .ok (id, m₁) →
        readUint32 m₁ = .ok (length, m₂) →
        bufCap < m₂.byteOffset + length →
        MIDIToWAV bytes bufCap = .error .panic) := by
  constructor
  · intro bytes bufCap c m hread hbad
    unfold MIDIToWAV midiParse
    simp only [hread, exceptBind_ok]
    rw [if_pos hbad]
    simp only [exceptBind_err]
  · intro bytes bufCap id length m₁ m₂ hs h32 hcap
    unfold MIDIToWAV midiParse readChunk
    simp only [hs, h32, exceptBind_ok]
    rw [if_neg (show ¬ (m₂.byteOffset + length ≤ bufCap) from by omega)]
    simp only [exceptBind_err]

theorem invalid_header_witness :
    MIDIToWAV ([88, 88, 88, 88, 0, 0, 0, 100]) 512 = .error (.err invalidHeaderMsg)
    ∧ MIDIToWAV ([88, 88, 88, 88, 255, 255, 255, 255]) 1536 = .error .panic :=
  ⟨invalid_header_of_bad_tag_or_length.1 ([88, 88, 88, 88, 0, 0, 0, 100]) 512
      ⟨"XXXX", 100, List.replicate 100 0⟩ ⟨[88, 88, 88, 88, 0, 0, 0, 100], 108, 0⟩
      (by decide) (Or.inl (by decide)),
   invalid_header_of_bad_tag_or_length.2 ([88, 88, 88, 88, 255, 255, 255, 255]) 1536
      ("XXXX") 4294967295 ⟨[88, 88, 88, 88, 255, 255, 255, 255], 4, 0⟩
      ⟨[88, 88, 88, 88, 255, 255, 255, 255], 8, 0⟩ (by decide) (by decide) (by norm_num)⟩

/-- C10: when the header parses as a valid MThd (so `midiParse` succeeds)
but no `MTrk` chunk is collected, the tick-based branch evaluates
`len(tracks[0])` on the empty track list, which is out of bounds: the
embedding yields the panic outcome, not a returned error. -/
theorem miditowav_no_tracks (bytes : List ℕ) (bufCap : ℕ)
    (tracks : List (List midiEvent)) (td : ℕ)
    (hparse : midiParse bytes bufCap = .ok (tracks, td)) (hempty : tracks = [])
    (hdiv : td >>> 15 = 0) :
    MIDIToWAV bytes bufCap = .error .panic := by
  unfold MIDIToWAV
  simp only [hparse, exceptBind_ok]
  subst hempty
  simp [buildTimeline, hdiv]

theorem miditowav_no_tracks_witness :
    MIDIToWAV ([77, 84, 104, 100, 0, 0, 0, 6, 0, 0, 0, 0, 0, 96]) 512 = .error .panic :=
  miditowav_no_tracks ([77, 84, 104, 100, 0, 0, 0, 6, 0, 0, 0, 0, 0, 96]) 512 [] 96
    (by decide) rfl (by decide)

theorem land127_of_lt {b : ℕ} (h : b < 128) : b &&& 127 = b := by
  interval_cases b <;> rfl

theorem land128_of_lt {b : ℕ} (h : b < 128) : b &&& 128 = 0 := by
  interval_cases b <;> rfl

theorem land240_of_lt {b : ℕ} (h : b < 128) : b &&& 240 ≠ 240 := by
  interval_cases b <;> decide

/-- A variable-length quantity starting with a byte whose top bit is clear
is that single byte. -/
theorem readVarUint_low (d : ℕ) (tail : List ℕ) (lb : ℕ) (hd : d < 128) :
    readVarUint ⟨d :: tail, 0, lb⟩ = .ok (d, ⟨d :: tail, 1, lb⟩) := by
  have h₁ := land127_of_lt hd
  have h₂ := land128_of_lt hd
  unfold readVarUint readVarUintAux
  simp [readUint8, h₁, h₂, exceptBind_ok]

/-- C3 (amended): on a stream whose first event has a one-byte delta and a
status byte with the top bit clear while no status byte was ever seen
(`lastEventTypeByte` still 0x00), `readEvent` does not fail: running status
resolves the event type to 0x00, whose high nibble falls into the `unknown`
channel case, so one extra data byte is consumed and a channel event with
subtype `unknown` on channel 0 is returned. -/
theorem readEvent_running_status_unknown (d b c : ℕ) (rest : List ℕ)
    (hd : d < 128) (hb : b < 128) :
    readEvent ⟨d :: b :: c :: rest, 0, 0⟩ =
      .ok (⟨d, "channel", "unknown", [("value", toString ((b <<< 8) + c))], 0⟩,
           ⟨d :: b :: c :: rest, 3, 0⟩) := by
  unfold readEvent
  rw [readVarUint_low d (b :: c :: rest) 0 hd]
  simp only [exceptBind_ok]
  simp [readUint8, land240_of_lt hb, land128_of_lt hb, exceptBind_ok]

theorem readEvent_running_status_unknown_witness :
    readEvent ⟨[5, 64, 32], 0, 0⟩ =
      .ok (⟨5, "channel", "unknown", [("value", toString ((64 <<< 8) + 32))], 0⟩,
           ⟨[5, 64, 32], 3, 0⟩) :=
  readEvent_running_status_unknown 5 64 32 [] (by norm_num) (by norm_num)

/-- C3 counterexample: the claim says `readEvent` fails when the first
event's status byte has the top bit clear and no status byte was seen; on
the concrete stream `[0x00, 0x40, 0x40]` it instead returns an `unknown`
channel event. -/
theorem readEvent_running_status_cex :
    readEvent (newMIDIStream [0, 64, 64]) =
      .ok (⟨0, "channel", "unknown", [("value", "16448")], 0⟩, ⟨[0, 64, 64], 3, 0⟩) := by
  decide

/-- C4: contrary to the claim, a negative semitone does not return the
invalid-octave error: the source's bounds check is one-sided
(`octaveIndex >= len(octaves)`), so every negative semitone reaches
`octaves[octaveIndex]` with a negative index and panics (first conjunct).
Every semitone with octave index at least 12 (i.e. `semitone ≥ 144`) does
return the invalid-octave error (second conjunct), and every semitone in
0..143 yields a name without error (third conjunct). -/
theorem noteFromSemitone_ranges :
    (∀ s : ℤ, s < 0 → noteFromSemitone s = .error .panic)
    ∧ (∀ s : ℤ, 144 ≤ s → noteFromSemitone s = .ok ("REST", some invalidOctaveMsg))
    ∧ (∀ k : Fin 144, ∃ n, noteFromSemitone ((k.val : ℕ) : ℤ) = .ok (n, none)) := by
  refine ⟨?_, ?_, ?_⟩
  · intro s hs
    have hfd : Int.fdiv s 12 = s / 12 := Int.fdiv_eq_ediv s (by norm_num)
    unfold noteFromSemitone
    rw [hfd]
    have h₁ : ¬ ((s / 12) ≥ (octavesTable.length : ℤ)) := by
      rw [show octavesTable.length = 12 from rfl]
      omega
    rw [if_neg h₁]
    have h₂ : ¬ (s - s / 12 * 12 ≥ (tonesTable.length : ℤ)) := by
      rw [show tonesTable.length = 12 from rfl]
      omega
    rw [if_neg h₂]
    have h₃ : ¬ ((0 : ℤ) ≤ s / 12) := by omega
    have hti : 0 ≤ s - s / 12 * 12 ∧ s - s / 12 * 12 < 12 := by omega
    obtain ⟨hta, htb⟩ := hti
    generalize hgen : s - s / 12 * 12 = t at hta htb ⊢
    interval_cases t <;>
      simp [listGetI, h₃, exceptBind_ok, exceptBind_err, tonesTable, List.cons_append,
        List.nil_append]
  · intro s hs
    have hfd : Int.fdiv s 12 = s / 12 := Int.fdiv_eq_ediv s (by norm_num)
    unfold noteFromSemitone
    rw [hfd]
    have h₁ : (s / 12) ≥ (octavesTable.length : ℤ) := by
      rw [show octavesTable.length = 12 from rfl]
      omega
    rw [if_pos h₁]
  · intro k
    have h := rtCheck_all k.val k.isLt
    unfold rtCheck at h
    rcases h₂ : noteFromSemitone ((k.val : ℕ) : ℤ) with e | p
    · rw [h₂] at h
      simp at h
    · obtain ⟨n, err⟩ := p
      rcases err with _ | e
      · exact ⟨n, h₂ ▸ rfl⟩
      · rw [h₂] at h
        simp at h

theorem noteFromSemitone_ranges_witness :
    noteFromSemitone (-1) = .error .panic
    ∧ noteFromSemitone 144 = .ok ("REST", some invalidOctaveMsg) :=
  ⟨noteFromSemitone_ranges.1 (-1) (by norm_num),
   noteFromSemitone_ranges.2.1 144 (by norm_num)⟩

/-- C8 counterexample: the claim's own example is false on the code: `Db4`
does not match the note-name syntax (the accidental must follow the octave
digits), so `semitoneFromNote` rejects it; and `noteFromSemitone 61`
produces `C4#` (accidental after the octave), not `C#4`. -/
theorem note_roundtrip_cex :
    semitoneFromNote ("Db4") = (0, some invalidNoteMsg)
    ∧ noteFromSemitone 61 = .ok ("C4#", none) := ⟨by decide, by decide⟩

/-- C8 (amended): for every note name accepted by `semitoneFromNote` whose
semitone lies in 0..143, `noteFromSemitone` succeeds and its result is an
enharmonic-equivalent spelling from the sharp-preferring table (it maps back
to the same semitone); accidentals are written after the octave digits, so
the concrete round trips are `C4 → 60 → C4` and `D4b → 61 → C4#`.  (Accepted
names outside 0..143 do not round-trip: negative semitones panic and
semitones ≥ 144 return the invalid-octave error, per the C4 theorem.) -/
theorem note_roundtrip_amended :
    (∀ (name : String) (s : ℤ), semitoneFromNote name = (s, none) → 0 ≤ s → s ≤ 143 →
        ∃ n, noteFromSemitone s = .ok (n, none) ∧ semitoneFromNote n = (s, none))
    ∧ semitoneFromNote ("C4") = (60, none) ∧ noteFromSemitone 60 = .ok ("C4", none)
    ∧ semitoneFromNote ("D4b") = (61, none) ∧ noteFromSemitone 61 = .ok ("C4#", none) := by
  refine ⟨?_, by decide, by decide, by decide, by decide⟩
  intro name s _hname h0 h1
  have hk := rtCheck_all s.toNat (by omega)
  unfold rtCheck at hk
  have hcast : ((s.toNat : ℕ) : ℤ) = s := Int.toNat_of_nonneg h0
  rw [hcast] at hk
  rcases h₂ : noteFromSemitone s with e | p
  · rw [h₂] at hk
    simp at hk
  · obtain ⟨n, err⟩ := p
    rcases err with _ | e
    · refine ⟨n, h₂ ▸ rfl, ?_⟩
      rw [h₂] at hk
      simp only at hk
      exact of_decide_eq_true hk
    · rw [h₂] at hk
      simp at hk

theorem note_roundtrip_witness :
    ∃ n, noteFromSemitone 60 = .ok (n, none) ∧ semitoneFromNote n = (60, none) :=
  note_roundtrip_amended.1 ("C4") 60 (by decide) (by norm_num) (by norm_num)

/-- C7: the chronology sort orders records by cumulative delta ascending
with note-off records before note-on records at equal delta (stated
directly by the sortedness relation), the sorted list is a permutation of
the records, and the per-file amplitude scale factor produced by the sweep
equals 128 divided by the maximum value attained by the running velocity
sum started at 1 (`runMax`).  The velocities of records built by the
timeline builder are parsed bytes, hence nonnegative, which the hypothesis
captures. -/
theorem chronology_sort_normalization (l : List noteEvent)
    (hv : ∀ e ∈ l, 0 ≤ e.velocity) :
    (sortEvents l).Perm l
    ∧ List.Sorted (fun a b : noteEvent =>
        a.delta < b.delta ∨ (a.delta = b.delta ∧ (a.note = true → b.note = true)))
        (sortEvents l)
    ∧ maxAmplitude l = 128 / (runMax 1 (sortEvents l) : ℚ) := by
  unfold sortEvents
  refine ⟨List.perm_insertionSort eventLE l, ?_, ?_⟩
  · exact List.Pairwise.imp (fun h => (eventLE_iff _ _).1 h)
      (List.sorted_insertionSort eventLE l)
  · unfold maxAmplitude sweepVelocity sortEvents
    have hv₂ : ∀ e ∈ List.insertionSort eventLE l, 0 ≤ e.velocity := fun e he =>
      hv e ((List.perm_insertionSort eventLE l).mem_iff.mp he)
    rw [sweep_foldl_maxVelocity (List.insertionSort eventLE l) 1 1 0 0 le_rfl hv₂]
    rw [max_eq_right (le_runMax 1 (List.insertionSort eventLE l))]

theorem chronology_sort_normalization_witness :
    (sortEvents [⟨100, 0, true⟩, ⟨100, 480, false⟩]).Perm
        [⟨100, 0, true⟩, ⟨100, 480, false⟩]
    ∧ List.Sorted (fun a b : noteEvent =>
        a.delta < b.delta ∨ (a.delta = b.delta ∧ (a.note = true → b.note = true)))
        (sortEvents [⟨100, 0, true⟩, ⟨100, 480, false⟩])
    ∧ maxAmplitude [⟨100, 0, true⟩, ⟨100, 480, false⟩] =
        128 / (runMax 1 (sortEvents [⟨100, 0, true⟩, ⟨100, 480, false⟩]) : ℚ) :=
  chronology_sort_normalization [⟨100, 0, true⟩, ⟨100, 480, false⟩] (by decide)

theorem semitoneFromNote_err_val (note : String)
    (h : (semitoneFromNote note).2.isSome = true) : (semitoneFromNote note).1 = 0 := by
  unfold semitoneFromNote at h ⊢
  revert h
  split
  · intro _
    rfl
  · split
    · intro _
      rfl
    · split
      · intro _
        rfl
      · split
        · intro _
          rfl
        · intro h
          simp at h

theorem frequencyFromSemitone_pos (s : ℤ) : 0 < frequencyFromSemitone s := by
  unfold frequencyFromSemitone
  positivity

theorem angularFrequency_pos (note : String) : 0 < angularFrequency note 44100 := by
  unfold angularFrequency frequencyFromSemitone
  positivity

/-- C2: contrary to the claim, a rest or rejected note name does not give an
angular frequency of zero: `writeNote` discards the `semitoneFromNote`
error and uses the returned value 0, and `frequencyFromSemitone 0` is about
8.18 Hz, strictly positive — so the `frequency > 0` branch is taken and a
(very low) tone is rendered.  First conjunct: every rejected name yields
semitone value 0 and a positive angular frequency at the 44100 Hz rate.
Second conjunct: rendering `REST` at unit amplitude for one second writes a
strictly positive sample at block index 1 — not silence. -/
theorem rest_renders_tone :
    (∀ note : String, (semitoneFromNote note).2.isSome = true →
        (semitoneFromNote note).1 = 0 ∧ 0 < angularFrequency note 44100)
    ∧ 0 < writeNoteSample ("REST") 44100 1 1 1 := by
  constructor
  · intro note h
    exact ⟨semitoneFromNote_err_val note h, angularFrequency_pos note⟩
  · have h₀ : (semitoneFromNote ("REST")).1 = 0 := by decide
    have hx0 : (0:ℝ) < (2:ℝ) ^ ((((0:ℤ):ℝ) - 69) / 12) :=
      Real.rpow_pos_of_pos (by norm_num) _
    have hx1 : (2:ℝ) ^ ((((0:ℤ):ℝ) - 69) / 12) < 1 := by
      apply Real.rpow_lt_one_of_one_lt_of_neg (by norm_num)
      norm_num
    have hfreq : angularFrequency ("REST") 44100 =
        440 * (2:ℝ) ^ ((((0:ℤ):ℝ) - 69) / 12) * Real.pi * 2 / 44100 := by
      unfold angularFrequency frequencyFromSemitone
      rw [h₀]
    have hfp : 0 < angularFrequency ("REST") 44100 := angularFrequency_pos _
    have hflt : angularFrequency ("REST") 44100 < Real.pi := by
      rw [hfreq]
      nlinarith [Real.pi_pos, hx0, hx1]
    have hsin : 0 < Real.sin (angularFrequency ("REST") 44100) :=
      Real.sin_pos_of_pos_of_lt_pi hfp hflt
    simp only [writeNoteSample]
    rw [if_pos hfp]
    split
    · have hs₂ : (0:ℝ) < Real.sin (angularFrequency ("REST") 44100 * ((1:ℕ):ℝ)) := by
        rw [Nat.cast_one, mul_one]
        exact hsin
      rw [one_mul]
      apply mul_pos hs₂
      norm_num
    · rename_i hcontra
      exfalso
      apply hcontra
      norm_num

theorem rest_renders_tone_witness :
    (semitoneFromNote ("REST")).1 = 0 ∧ 0 < angularFrequency ("REST") 44100 :=
  rest_renders_tone.1 ("REST") (by decide)
